import Mathlib

/-!
Verification development for the AI Music Video Maker pipeline.

The definitions below are a shallow embedding of the TypeScript sources:
  * `src/utils.ts`            — `parseLyrics` (the lyrics segmenter);
  * `src/App.tsx`             — `handleGenerateScenePrompts` (the section/prompt
    matcher), the background worker script (`generate-all` job loop), and the
    worker-message handler on the caller side;
  * `src/services/geminiService.ts` — `pollForVideoResult` and the final-prompt
    computation of `generateAnimationVideo`.

Strings are modelled as Lean `String`/`List Char`.  JavaScript whitespace
(`trim`, the regex class `\s`) is modelled by `isWs`, covering the ASCII
whitespace characters that can occur in the pipeline's data.
-/

/-- JavaScript whitespace test used by `String.prototype.trim` and the regex
class `\s`, restricted to the ASCII whitespace characters. -/
def isWs (c : Char) : Bool :=
  c = ' ' || c = '\t' || c = '\n' || c = '\r' || c = Char.ofNat 11 || c = Char.ofNat 12

/-- JavaScript `String.prototype.trim` on a character list: drop whitespace
from both ends. -/
def jsTrim (l : List Char) : List Char :=
  ((l.dropWhile isWs).reverse.dropWhile isWs).reverse

/-- `trim` lifted back to `String`. -/
def jsTrimS (s : String) : String :=
  String.mk (jsTrim s.data)

/-- JavaScript `a.includes(b)`: `b` occurs as a contiguous substring of `a`. -/
def includesS (a b : String) : Bool :=
  decide (b.data <:+: a.data)

/-- `text.replace(/\\n/g, '\n')` from `parseLyrics`: every two-character
sequence backslash-`n` becomes a newline. -/
def replBackslashN : List Char → List Char
  | [] => []
  | c :: rest =>
    if c = '\\' then
      match rest with
      | [] => [c]
      | d :: rest' =>
        if d = 'n' then '\n' :: replBackslashN rest'
        else c :: replBackslashN (d :: rest')
    else c :: replBackslashN rest

/-- `text.replace(/\r\n?/g, '\n')` from `parseLyrics`: `\r\n` or a lone `\r`
becomes a newline. -/
def replCR : List Char → List Char
  | [] => []
  | c :: rest =>
    if c = '\r' then
      match rest with
      | [] => ['\n']
      | d :: rest' =>
        if d = '\n' then '\n' :: replCR rest'
        else '\n' :: replCR (d :: rest')
    else c :: replCR rest

/-- `block.split('\n')` — split on single newlines, keeping empty pieces. -/
def splitLines : List Char → List (List Char)
  | [] => [[]]
  | c :: rest =>
    if c = '\n' then [] :: splitLines rest
    else
      match splitLines rest with
      | l :: ls => (c :: l) :: ls
      | [] => [[c]]

/-- `lines.join('\n')`. -/
def joinNL (ls : List (List Char)) : List Char :=
  List.intercalate ['\n'] ls

/-- A line consisting of whitespace only (possibly empty); such lines can be
traversed by the `\s*` of the separator regex `/\n\s*\n/`. -/
def isBlankLine (l : List Char) : Bool :=
  l.all isWs

/-- Reassemble the accumulated (reversed) lines of the current split piece. -/
def finishBlock (cur : List (List Char)) : List Char :=
  joinNL cur.reverse

/-- Scanner for `cleanedText.split(/\n\s*\n/)`, working line-wise.  A match of
`/\n\s*\n/` starts at the newline ending some line, traverses one or more
whitespace-only lines, and (being greedy, with a mandatory final `\n`) ends at
the newline ending the last such blank line.  Hence: a run of blank lines
followed by a further line is a separator; a run of `k ≥ 2` blank lines ending
the input is a separator up to the newline before the `k`-th, which alone forms
the final piece; a single blank line ending the input supports no match and
stays in the current piece.  `cur` and `pending` (the blank lines seen since
`cur`) are kept reversed. -/
def groupGo (cur pending : List (List Char)) : List (List Char) → List (List Char)
  | [] =>
    (match pending with
     | [] => [finishBlock cur]
     | [p] => [finishBlock (p :: cur)]
     | p :: _ => [finishBlock cur, p])
  | l :: ls =>
    if isBlankLine l then groupGo cur (l :: pending) ls
    else
      match pending with
      | [] => groupGo (l :: cur) [] ls
      | _ => finishBlock cur :: groupGo [l] [] ls

/-- `cleanedText.split(/\n\s*\n/)` from `parseLyrics`.  The first line always
belongs to the first piece (a match needs a preceding newline), so it seeds
`cur` directly. -/
def splitBlocks (cs : List Char) : List (List Char) :=
  match splitLines cs with
  | [] => [[]]
  | l0 :: rest => groupGo [l0] [] rest

/-- The JavaScript word-character class `\w` = `[A-Za-z0-9_]`, used for the
word-boundary assertion `\b`. -/
def isWordChar (c : Char) : Bool :=
  c.isAlphanum || c = '_'

/-- `\b` directly after a word character: the next input character must be
absent or not a word character. -/
def wordBoundaryOK : List Char → Bool
  | [] => true
  | c :: _ => !isWordChar c

/-- Case-insensitive comparison of single characters, as the `/i` regex flag
performs on ASCII. -/
def lowerEq (a b : Char) : Bool :=
  a.toLower = b.toLower

/-- Match a literal pattern case-insensitively against the head of the input;
returns the consumed input characters (original case) and the rest. -/
def matchLitCI : List Char → List Char → Option (List Char × List Char)
  | [], cs => some ([], cs)
  | p :: ps, c :: cs =>
    if lowerEq p c then
      match matchLitCI ps cs with
      | some (t, r) => some (c :: t, r)
      | none => none
    else none
  | _ :: _, [] => none

/-- The alternative `Verse \d+` of the header regex, followed by `\b:?`:
returns the captured text (`Verse` plus digits, original case) and the number
of consumed characters (including an optional trailing colon). -/
def tryVerse (cs : List Char) : Option (List Char × Nat) :=
  match matchLitCI ['V', 'e', 'r', 's', 'e', ' '] cs with
  | none => none
  | some (t, r) =>
    let ds := r.takeWhile Char.isDigit
    if ds.isEmpty then none
    else
      let r2 := r.dropWhile Char.isDigit
      if wordBoundaryOK r2 then
        some (t ++ ds, t.length + ds.length +
          (if r2.headD ' ' = ':' then 1 else 0))
      else none

/-- A fixed-keyword alternative of the header regex, followed by `\b:?`. -/
def tryKeyword (kw : List Char) (cs : List Char) : Option (List Char × Nat) :=
  match matchLitCI kw cs with
  | none => none
  | some (t, r) =>
    if wordBoundaryOK r then
      some (t, t.length + (if r.headD ' ' = ':' then 1 else 0))
    else none

/-- The keyword alternation
`(Verse \d+|Pre-Chorus|Chorus|Bridge|Intro|Outro|Interlude|Hook)\b:?`,
tried in the order the source regex lists the alternatives. -/
def matchKeywordAlt (cs : List Char) : Option (List Char × Nat) :=
  match tryVerse cs with
  | some r => some r
  | none =>
  match tryKeyword "Pre-Chorus".data cs with
  | some r => some r
  | none =>
  match tryKeyword "Chorus".data cs with
  | some r => some r
  | none =>
  match tryKeyword "Bridge".data cs with
  | some r => some r
  | none =>
  match tryKeyword "Intro".data cs with
  | some r => some r
  | none =>
  match tryKeyword "Outro".data cs with
  | some r => some r
  | none =>
  match tryKeyword "Interlude".data cs with
  | some r => some r
  | none => tryKeyword "Hook".data cs

/-- The header regex of `parseLyrics`:
`/^\s*(?:\[([^\]]+)\]|\(([^)]+)\)|(Verse \d+|Pre-Chorus|Chorus|Bridge|Intro|Outro|Interlude|Hook)\b:?)/i`.
Returns the length of `match[0]` and the text of the participating capture
group.  The three alternatives start with `[`, `(`, and letters respectively,
so dispatching on the first character after the whitespace is faithful to the
regex backtracking behaviour. -/
def headerMatch (cs : List Char) : Option (Nat × List Char) :=
  let ws := cs.takeWhile isWs
  let rest := cs.dropWhile isWs
  match rest with
  | '[' :: r =>
    let inner := r.takeWhile (fun c => c ≠ ']')
    (match r.dropWhile (fun c => c ≠ ']') with
     | ']' :: _ => if inner.isEmpty then none else some (ws.length + inner.length + 2, inner)
     | _ => none)
  | '(' :: r =>
    let inner := r.takeWhile (fun c => c ≠ ')')
    (match r.dropWhile (fun c => c ≠ ')') with
     | ')' :: _ => if inner.isEmpty then none else some (ws.length + inner.length + 2, inner)
     | _ => none)
  | _ =>
    match matchKeywordAlt rest with
    | some (g, len) => some (ws.length + len, g)
    | none => none

/-- One section of segmented lyrics, the anonymous `{ header, content }`
record type of `parseLyrics`. -/
structure LyricSection where
  header : String
  content : String
deriving DecidableEq

/-- The body of the `blocks.forEach` callback in `parseLyrics`; returns `none`
when the block contributes no section (empty content). -/
def processBlock (index : Nat) (block : List Char) : Option LyricSection :=
  let lines := splitLines (jsTrim block)
  let firstLine := jsTrim (lines.headD [])
  match headerMatch firstLine with
  | some (len, g) =>
    let header := jsTrim g
    let contentFromFirstLine := jsTrim (firstLine.drop len)
    let restOfLines := joinNL (lines.drop 1)
    let content0 := jsTrim (joinNL (([contentFromFirstLine, restOfLines]).filter
      (fun l => !l.isEmpty)))
    let content :=
      if content0.isEmpty && decide (1 < lines.length) then jsTrim restOfLines else content0
    if content.isEmpty then none
    else some ⟨String.mk header, String.mk content⟩
  | none =>
    let content := jsTrim block
    if content.isEmpty then none
    else some ⟨"Scene " ++ toString (index + 1), String.mk content⟩

/-- The block list of `parseLyrics`: clean the text, split on blank-line runs,
drop whitespace-only pieces. -/
def blocksOf (text : String) : List (List Char) :=
  (splitBlocks (jsTrim (replCR (replBackslashN text.data)))).filter
    (fun b => !(jsTrim b).isEmpty)

/-- `parseLyrics` from `src/utils.ts`.  The guard `!text || !text.trim()` is
equivalent to `text.trim() = ""` because `"".trim() = ""`. -/
def parseLyrics (text : String) : List LyricSection :=
  if (jsTrim text.data).isEmpty then []
  else
    let cleaned := jsTrim (replCR (replBackslashN text.data))
    let blocks := blocksOf text
    if blocks.isEmpty then
      if !cleaned.isEmpty then [⟨"Scene 1", String.mk cleaned⟩] else []
    else
      blocks.enum.filterMap (fun p => processBlock p.1 p.2)

example : parseLyrics "Verse 1:\nHello there\n\nChorus:\nShine on" =
    [⟨"Verse 1", "Hello there"⟩, ⟨"Chorus", "Shine on"⟩] := by decide

example : parseLyrics "hello" = [⟨"Scene 1", "hello"⟩] := by decide

example : parseLyrics "[Verse 1]" = [] := by decide

example : parseLyrics "  \n " = [] := by decide

/-! ## Data model (`src/types.ts`) and the section/prompt matcher
(`handleGenerateScenePrompts` in `src/App.tsx`) -/

/-- Scene lifecycle status from `src/types.ts`. -/
inductive SceneStatus where
  | idle
  | image_generating
  | video_generating
  | completed
  | error
deriving DecidableEq

/-- The `Scene` record from `src/types.ts`; the optional fields default to
absent, as in the object literal built by `handleGenerateScenePrompts`. -/
structure Scene where
  id : Nat
  sectionHeader : String
  sectionContent : String
  imagePrompt : String
  animationPrompt : String
  status : SceneStatus
  errorMessage : Option String := none
  generatedImageBase64 : Option String := none
  generatedVideoUrl : Option String := none
deriving DecidableEq

/-- One element of the scene-prompt generator output
(`ScenePromptGenerationResult` in `src/services/geminiService.ts`).
`sectionLabel` models the field named `section` in the source (`section` is a
Lean keyword). -/
structure PromptCandidate where
  sectionLabel : String
  imagePrompt : String
  animationPrompt : String
deriving DecidableEq

/-- `header.toLowerCase().replace(/[\[\]():]/g, '').trim()` from
`handleGenerateScenePrompts` (replacing by the empty string is filtering the
characters out). -/
def cleanHeader (s : String) : String :=
  String.mk (jsTrim ((s.data.map Char.toLower).filter
    (fun c => !(c = '[' || c = ']' || c = '(' || c = ')' || c = ':'))))

/-- The `findIndex` predicate of `handleGenerateScenePrompts`:
`cleanedHeader === cleanedApiSection || cleanedHeader.includes(cleanedApiSection)
|| cleanedApiSection.includes(cleanedHeader)`. -/
def matchesCandidate (cleanedHeader : String) (p : PromptCandidate) : Bool :=
  let c := cleanHeader p.sectionLabel
  cleanedHeader == c || includesS cleanedHeader c || includesS c cleanedHeader

/-- `availablePrompts.findIndex(...)` followed by `splice(bestMatchIndex, 1)`:
the first pool element satisfying `p`, together with the pool without it. -/
def findRemove {α : Type} (p : α → Bool) : List α → Option (α × List α)
  | [] => none
  | x :: xs =>
    if p x then some (x, xs)
    else
      match findRemove p xs with
      | some (y, ys) => some (y, x :: ys)
      | none => none

/-- The `parsed.map((section, index) => ...)` body of
`handleGenerateScenePrompts`, threading the mutable candidate pool. -/
def buildScenesGo : Nat → List LyricSection → List PromptCandidate → List Scene
  | _, [], _ => []
  | i, sec :: rest, pool =>
    match findRemove (matchesCandidate (cleanHeader sec.header)) pool with
    | some (pd, pool') =>
      { id := i, sectionHeader := sec.header, sectionContent := sec.content,
        imagePrompt := pd.imagePrompt, animationPrompt := pd.animationPrompt,
        status := .idle } :: buildScenesGo (i + 1) rest pool'
    | none =>
      { id := i, sectionHeader := sec.header, sectionContent := sec.content,
        imagePrompt := "", animationPrompt := "",
        status := .idle } :: buildScenesGo (i + 1) rest pool

/-- The matching pass of `handleGenerateScenePrompts` (`src/App.tsx`,
lines 432–458): sections in order against a consumable candidate pool. -/
def buildScenes (sections : List LyricSection) (prompts : List PromptCandidate) :
    List Scene :=
  buildScenesGo 0 sections prompts

example :
    (buildScenes [⟨"[Verse 1]", "Hello there"⟩, ⟨"[Chorus]", "Shine on"⟩]
      [⟨"Chorus", "IC", "AC"⟩, ⟨"Verse 1", "IV", "AV"⟩]).map Scene.imagePrompt
    = ["IV", "IC"] := by decide

/-! ## `getFriendlyErrorMessage` (duplicated in `src/App.tsx` and the worker
script).  Thrown errors are modelled by their message strings, so the
`err instanceof Error` test is always true here. -/

/-- `getFriendlyErrorMessage` from `src/App.tsx`. -/
def getFriendlyErrorMessage (m : String) : String :=
  let lower := String.mk (m.data.map Char.toLower)
  if includesS lower "500" || includesS lower "internal" || includesS lower "server error" then
    "ビデオ生成サービスで一時的な内部エラーが発生しました。しばらくしてからもう一度お試しいただくか、プロンプトを少し変更してみてください。"
  else if includesS lower "requested entity was not found" then
    "APIキーが見つかりませんでした。再度APIキーを選択してください。"
  else if includesS lower "quota" || includesS lower "resource_exhausted" then
    "APIの利用上限に達したようです。Google AI Studioで支払い設定を確認してください。"
  else if includesS lower "api_key" && (includesS lower "invalid" || includesS lower "not found") then
    "APIキーが無効です。有効なAPIキーか確認してください。"
  else if includesS lower "fetch" then
    "ネットワークエラーが発生しました。接続を確認してください。"
  else m

/-! ## The background worker's `generate-all` loop (`workerScript` in
`src/App.tsx`).

The worker communicates by `postMessage`; a run is modelled as the list of
messages it posts.  The cooperative abort flag `isAborted` is set
asynchronously by a `stop` message and never cleared during a run, so it is
modelled by an optional threshold `t`: the `k`-th read of the flag (reads are
numbered from 0 in program order) returns `true` exactly when `t = some n`
with `n ≤ k`.  This covers every possible moment at which the flag can flip.
The outcomes of the remote image/video calls are supplied by oracles
`imgRes`/`vidRes` indexed by scene id (`Except.error` models a thrown
exception, carrying the error message). -/

/-- Messages posted by the worker (`self.postMessage({type, payload})`). -/
inductive WorkerMsg where
  | progress (message : String)
  | image_generating (sceneId : Nat)
  | video_generating (sceneId : Nat) (imageBase64 : String)
  | completed (sceneId : Nat) (videoUrl : String)
  | error (sceneId : Nat) (message : String)
  | countdown (seconds : Nat)
  | stopped
  | all_complete
deriving DecidableEq

/-- The value of the abort flag at its `k`-th read. -/
def readFlag (t : Option Nat) (k : Nat) : Bool :=
  match t with
  | none => false
  | some n => decide (n ≤ k)

/-- The progress message posted before a scene starts:
`クリップ ${index + 1} / ${scenes.length} を生成中: 「${scene.sectionHeader}」`. -/
def mkProgressStart (idx n : Nat) (header : String) : String :=
  "クリップ " ++ toString (idx + 1) ++ " / " ++ toString n ++ " を生成中: 「" ++ header ++ "」"

/-- `'次の生成まで待機中...'`. -/
def waitingMsg : String := "次の生成まで待機中..."

/-- One iteration of the `generate-all` `for` loop up to (and excluding) the
inter-scene delay block: the top-of-loop abort check, the progress message,
the try/catch around the image and video calls with abort checks after each
call.  Returns the posted messages, the next read counter, and whether the
iteration executed `break` (after posting `stopped`). -/
def sceneStep (imgRes vidRes : Nat → Except String String) (t : Option Nat)
    (n idx : Nat) (sc : Scene) (k : Nat) : List WorkerMsg × Nat × Bool :=
  if readFlag t k then ([.stopped], k + 1, true)
  else
    match imgRes sc.id with
    | .error e =>
      ([.progress (mkProgressStart idx n sc.sectionHeader), .image_generating sc.id,
        .error sc.id (getFriendlyErrorMessage e)], k + 1, false)
    | .ok img =>
      if readFlag t (k + 1) then
        ([.progress (mkProgressStart idx n sc.sectionHeader), .image_generating sc.id,
          .stopped], k + 2, true)
      else
        match vidRes sc.id with
        | .error e =>
          ([.progress (mkProgressStart idx n sc.sectionHeader), .image_generating sc.id,
            .video_generating sc.id img, .error sc.id (getFriendlyErrorMessage e)],
           k + 2, false)
        | .ok vid =>
          if readFlag t (k + 2) then
            ([.progress (mkProgressStart idx n sc.sectionHeader), .image_generating sc.id,
              .video_generating sc.id img, .stopped], k + 3, true)
          else
            ([.progress (mkProgressStart idx n sc.sectionHeader), .image_generating sc.id,
              .video_generating sc.id img, .completed sc.id vid], k + 3, false)

/-- The countdown `for (let i = delayInSeconds; i > 0; i--)` loop: each
iteration first reads the abort flag (`break` on true) and then posts
`countdown i`.  Returns the posted messages and the next read counter. -/
def countdownLoop (t : Option Nat) : Nat → Nat → List WorkerMsg × Nat
  | 0, k => ([], k)
  | m + 1, k =>
    if readFlag t k then ([], k + 1)
    else
      let r := countdownLoop t m (k + 1)
      (.countdown (m + 1) :: r.1, r.2)

/-- The inter-scene delay block: guarded by
`index < scenes.length - 1 && !isAborted` (the flag is read only when the
index test passes), then the waiting progress message, the countdown loop, and
a final flag read that either posts `stopped` and breaks or posts
`countdown 0`. -/
def delaySection (t : Option Nat) (d : Nat) (notLast : Bool) (k : Nat) :
    List WorkerMsg × Nat × Bool :=
  if notLast then
    if readFlag t k then ([], k + 1, false)
    else
      let r := countdownLoop t d (k + 1)
      if readFlag t r.2 then (.progress waitingMsg :: r.1 ++ [.stopped], r.2 + 1, true)
      else (.progress waitingMsg :: r.1 ++ [.countdown 0], r.2 + 1, false)
  else ([], k, false)

/-- The `if (!isAborted) postMessage all_complete` after the loop. -/
def finishRun (t : Option Nat) (k : Nat) : List WorkerMsg :=
  if readFlag t k then [] else [.all_complete]

/-- The `for (const [index, scene] of scenes.entries())` loop of
`generate-all`, over the enumerated scene list. -/
def runLoop (imgRes vidRes : Nat → Except String String) (t : Option Nat)
    (n d : Nat) : List (Nat × Scene) → Nat → List WorkerMsg
  | [], k => finishRun t k
  | (idx, sc) :: rest, k =>
    let s := sceneStep imgRes vidRes t n idx sc k
    if s.2.2 then s.1 ++ finishRun t s.2.1
    else
      let dd := delaySection t d (decide (idx + 1 < n)) s.2.1
      if dd.2.2 then s.1 ++ dd.1 ++ finishRun t dd.2.1
      else s.1 ++ dd.1 ++ runLoop imgRes vidRes t n d rest dd.2.1

/-- The whole `generate-all` handler of the worker (`src/App.tsx`,
lines 139–188): `isAborted = false` at entry (reads are counted from 0),
`delayInSeconds = delay * 60`, then the scene loop and the final
`all_complete` guard. -/
def workerGenerateAll (scenes : List Scene) (delayMinutes : Nat)
    (imgRes vidRes : Nat → Except String String) (t : Option Nat) : List WorkerMsg :=
  runLoop imgRes vidRes t scenes.length (delayMinutes * 60) scenes.enum 0

/-! ## The caller-side worker-message handler (`worker.onmessage` in
`src/App.tsx`), as a fold over the posted messages. -/

/-- The component state touched by `worker.onmessage`. -/
structure CallerState where
  scenes : List Scene
  isGeneratingClips : Bool
  generationStatusMessage : String
  countdown : Nat
  isKeySelected : Bool
deriving DecidableEq

/-- `updateScene(id, updates)`: merge updates into the scene with this id. -/
def updateSceneList (scenes : List Scene) (sid : Nat) (f : Scene → Scene) : List Scene :=
  scenes.map (fun s => if s.id = sid then f s else s)

/-- The `worker.onmessage` switch from `src/App.tsx` (lines 298–342). -/
def applyWorkerMsg (st : CallerState) (m : WorkerMsg) : CallerState :=
  match m with
  | .image_generating sid =>
    { st with scenes :=
        updateSceneList st.scenes sid (fun s => { s with status := .image_generating }) }
  | .video_generating sid img =>
    { st with scenes :=
        updateSceneList st.scenes sid (fun s => { s with generatedImageBase64 := some img, status := .video_generating }) }
  | .completed sid url =>
    { st with scenes :=
        updateSceneList st.scenes sid (fun s => { s with generatedVideoUrl := some url, status := .completed }) }
  | .error sid msg =>
    { st with
      scenes :=
        updateSceneList st.scenes sid (fun s => { s with status := .error, errorMessage := some msg }),
      isKeySelected :=
        if msg ≠ "" && includesS msg "APIキー" then false else st.isKeySelected }
  | .progress message => { st with generationStatusMessage := message }
  | .countdown s =>
    { st with
      countdown := s,
      generationStatusMessage := if 0 < s then waitingMsg else st.generationStatusMessage }
  | .all_complete =>
    { st with
      isGeneratingClips := false,
      generationStatusMessage := "すべてのクリップが生成されました！",
      countdown := 0 }
  | .stopped =>
    { st with
      isGeneratingClips := false,
      generationStatusMessage := "生成が中止されました。",
      countdown := 0,
      scenes := st.scenes.map (fun s => if s.status = .image_generating || s.status = .video_generating then { s with status := .idle } else s) }

/-! ## `pollForVideoResult` (`src/services/geminiService.ts`, lines 167–186)
and the final prompt of `generateAnimationVideo` (lines 198–218). -/

/-- The fields of a video operation object the poller inspects: `done`, the
optional `error` (modelled by its `message`), and the optional result locator
`response?.generatedVideos?.[0]?.video?.uri` (any missing link of the chain is
`none`). -/
structure VideoOperation where
  done : Bool
  error : Option String
  uri : Option String
deriving DecidableEq

/-- The outcome of `fetch(fullUrl)` as `pollForVideoResult` consumes it:
`ok`, `statusText`, and the object URL created from the fetched blob. -/
structure FetchResponse where
  ok : Bool
  statusText : String
  blobUrl : String
deriving DecidableEq

/-- The `while (!currentOperation.done)` loop: re-query until an operation
reports `done`.  The successive poll responses are supplied as a list; `none`
means the supplied sequence was exhausted without completion (the source loop
would simply keep polling). -/
def pollLoop (cur : VideoOperation) (polls : List VideoOperation) : Option VideoOperation :=
  if cur.done then some cur
  else
    match polls with
    | [] => none
    | p :: ps => pollLoop p ps

/-- The code after the poll loop: the `error` check, the locator check
(JavaScript `!downloadLink` is true for an absent or empty string), the fetch,
and the `response.ok` check.  `Except.error` models a thrown exception. -/
def finishOperation (op : VideoOperation) (fetch : String → FetchResponse)
    (apiKey : String) : Except String String :=
  match op.error with
  | some m => .error ("Video generation failed: " ++ m)
  | none =>
    let link := op.uri.getD ""
    if link = "" then .error "Could not retrieve video download link."
    else
      let resp := fetch (link ++ "&key=" ++ apiKey)
      if resp.ok then .ok resp.blobUrl
      else .error ("Failed to fetch video data: " ++ resp.statusText)

/-- `pollForVideoResult` from `src/services/geminiService.ts`: poll to
completion, then check error, locator, and fetch exactly once.  `apiKey`
stands for `process.env.API_KEY`. -/
def pollForVideoResult (init : VideoOperation) (polls : List VideoOperation)
    (fetch : String → FetchResponse) (apiKey : String) :
    Option (Except String String) :=
  (pollLoop init polls).map (fun op => finishOperation op fetch apiKey)

/-- The fixed default animation prompt of `generateAnimationVideo`. -/
def defaultAnimationPrompt : String := "subtle movement, gentle breathing, slight blinking"

/-- The lip-sync suffix appended by `generateAnimationVideo` when the flag is
set. -/
def lipSyncSuffix : String :=
  ", The character is performing a song with passionate and expressive lip movements. The mouth shapes should realistically match the act of singing, with clear vowels and consonant articulations."

/-- The `finalPrompt` computation of `generateAnimationVideo`
(`src/services/geminiService.ts` lines 203–210, duplicated in the worker
script): trim, default if empty, append the lip-sync suffix if requested.
The result is the `prompt` field of the `generateVideos` request. -/
def buildFinalPrompt (prompt : String) (lipSync : Bool) : String :=
  let t := jsTrimS prompt
  let base := if t = "" then defaultAnimationPrompt else t
  if lipSync then base ++ lipSyncSuffix else base

/-! ## Lemmas about the segmenter -/

theorem jsTrim_eq_nil_iff {l : List Char} : jsTrim l = [] ↔ ∀ c ∈ l, isWs c = true := by
  unfold jsTrim
  rw [List.reverse_eq_nil_iff, List.dropWhile_eq_nil_iff]
  constructor
  · intro h c hc
    have hsplit : c ∈ l.takeWhile isWs ++ l.dropWhile isWs := by
      rw [List.takeWhile_append_dropWhile]; exact hc
    rcases List.mem_append.mp hsplit with h1 | h2
    · exact List.mem_takeWhile_imp h1
    · exact h c (List.mem_reverse.mpr h2)
  · intro h c hc
    exact h c (List.Sublist.mem (List.mem_reverse.mp hc) (List.dropWhile_sublist isWs))

theorem replBackslashN_of_all_ws {l : List Char} (h : ∀ c ∈ l, isWs c = true) :
    replBackslashN l = l := by
  induction l with
  | nil => rfl
  | cons c rest ih =>
    have hc : isWs c = true := h c (List.mem_cons_self _ _)
    have hne : ¬(c = '\\') := by intro e; subst e; simp [isWs] at hc
    have hrest : ∀ x ∈ rest, isWs x = true := fun x hx => h x (List.mem_cons_of_mem _ hx)
    rw [replBackslashN.eq_def]
    simp only []
    rw [if_neg hne, ih hrest]

theorem replCR_all_ws {l : List Char} (h : ∀ c ∈ l, isWs c = true) :
    ∀ c ∈ replCR l, isWs c = true := by
  induction l with
  | nil => intro c hc; simp [replCR] at hc
  | cons c rest ih =>
    have hc : isWs c = true := h c (List.mem_cons_self _ _)
    have hrest : ∀ x ∈ rest, isWs x = true := fun x hx => h x (List.mem_cons_of_mem _ hx)
    have hihr := ih hrest
    intro x hx
    rw [replCR.eq_def] at hx
    simp only [] at hx
    by_cases hcr : c = '\r'
    · rw [if_pos hcr] at hx
      cases rest with
      | nil =>
        simp at hx; subst hx; decide
      | cons d rest2 =>
        simp only [] at hx
        by_cases hd : d = '\n'
        · subst hd
          rw [if_pos rfl] at hx
          rcases List.mem_cons.mp hx with rfl | hx2
          · decide
          · have hb : replCR ('\n' :: rest2) = '\n' :: replCR rest2 := by
              rw [replCR.eq_def]
              simp only []
              rw [if_neg (by decide)]
            exact hihr x (by rw [hb]; exact List.mem_cons_of_mem _ hx2)
        · rw [if_neg hd] at hx
          rcases List.mem_cons.mp hx with rfl | hx2
          · decide
          · exact hihr x hx2
    · rw [if_neg hcr] at hx
      rcases List.mem_cons.mp hx with rfl | hx2
      · exact hc
      · exact hihr x hx2

theorem blocksOf_of_trim_nil (text : String) (h : jsTrim text.data = []) :
    blocksOf text = [] := by
  have hws := jsTrim_eq_nil_iff.mp h
  have h1 : replBackslashN text.data = text.data := replBackslashN_of_all_ws hws
  have h2 : jsTrim (replCR (replBackslashN text.data)) = [] := by
    rw [h1]
    exact jsTrim_eq_nil_iff.mpr (replCR_all_ws hws)
  unfold blocksOf
  rw [h2]
  rfl

/-! ## Claim C9 — segmenter totality and whitespace inputs -/

/-- C9: The segmenter is a total function — `parseLyrics` is a total Lean
function returning a list for every string — and for every input that is
empty or consists only of whitespace it returns the empty list. -/
theorem parseLyrics_total_whitespace_empty (s : String)
    (h : ∀ c ∈ s.data, isWs c = true) : parseLyrics s = [] := by
  have ht : jsTrim s.data = [] := jsTrim_eq_nil_iff.mpr h
  unfold parseLyrics
  rw [ht]
  rfl

/-- Witness for C9 at the whitespace-only input `" \n\t "` (and the empty
string is covered by the same theorem). -/
theorem parseLyrics_total_whitespace_empty_witness :
    parseLyrics " \n\t " = [] ∧ parseLyrics "" = [] :=
  ⟨parseLyrics_total_whitespace_empty _ (by decide),
   parseLyrics_total_whitespace_empty _ (by decide)⟩

/-! ## Claim C2 — blocks whose first line is not a header -/

/-- C2 (counterexample): on input `"hello"` (one block, first line matches no
header pattern) the segmenter does not return a section with empty header —
the section is named `"Scene 1"`. -/
theorem parseLyrics_unheadered_header_not_empty :
    parseLyrics "hello" = [⟨"Scene 1", "hello"⟩] ∧
    ¬ ∃ sec ∈ parseLyrics "hello", sec.header = "" :=
  ⟨by decide, by decide⟩

/-- C2 (amended): for every block (at 0-based index `i` of the block list)
whose first line does not match the header pattern, the segmenter returns a
section whose header is `"Scene "` followed by the 1-based block index and
whose content is the trimmed block. -/
theorem parseLyrics_unheadered_scene_named (text : String) (i : Nat) (b : List Char)
    (hb : (blocksOf text).get? i = some b)
    (hm : headerMatch (jsTrim ((splitLines (jsTrim b)).headD [])) = none) :
    (⟨"Scene " ++ toString (i + 1), String.mk (jsTrim b)⟩ : LyricSection) ∈ parseLyrics text := by
  have hb' : (blocksOf text)[i]? = some b := by
    rw [← List.get?_eq_getElem?]; exact hb
  have hmem : b ∈ blocksOf text := List.getElem?_mem hb'
  have hbne : ¬((blocksOf text).isEmpty = true) := by
    intro e
    rw [List.isEmpty_iff] at e
    rw [e] at hmem; simp at hmem
  have htrimne : ¬((jsTrim text.data).isEmpty = true) := by
    intro e
    rw [List.isEmpty_iff] at e
    have h0 := blocksOf_of_trim_nil text e
    rw [h0] at hmem; simp at hmem
  have hfilt : (!(jsTrim b).isEmpty) = true := by
    have hmem2 : b ∈ (splitBlocks (jsTrim (replCR (replBackslashN text.data)))).filter
        (fun b => !(jsTrim b).isEmpty) := hmem
    exact (List.mem_filter.mp hmem2).2
  have hpb : processBlock i b =
      some ⟨"Scene " ++ toString (i + 1), String.mk (jsTrim b)⟩ := by
    simp only [processBlock, hm]
    rw [if_neg ?hne]
    case hne => simp at hfilt; simp [List.isEmpty_iff, hfilt]
  have hi : i < (blocksOf text).length := by
    rcases List.getElem?_eq_some.mp hb' with ⟨h, _⟩
    exact h
  have hget : (blocksOf text)[i] = b := by
    rcases List.getElem?_eq_some.mp hb' with ⟨h, hg⟩
    exact hg
  have henum : (i, b) ∈ (blocksOf text).enum := by
    have hlen : i < (blocksOf text).enum.length := by
      rw [List.enum_length]; exact hi
    have hgete := List.getElem_enum (blocksOf text) i hlen
    rw [hget] at hgete
    rw [← hgete]
    exact List.getElem_mem _
  unfold parseLyrics
  rw [if_neg htrimne, if_neg hbne]
  exact List.mem_filterMap.mpr ⟨(i, b), henum, hpb⟩

/-- Witness for the amended C2 at input `"hello"`, block index 0. -/
theorem parseLyrics_unheadered_scene_named_witness :
    (⟨"Scene " ++ toString (0 + 1), String.mk (jsTrim "hello".data)⟩ : LyricSection)
      ∈ parseLyrics "hello" :=
  parseLyrics_unheadered_scene_named "hello" 0 "hello".data (by decide) (by decide)

/-! ## Claim C3 — header-only blocks -/

/-- C3 (counterexample): the input `"[Verse 1]"` is a single block consisting
of one header-matching line with nothing after it; the segmenter drops it —
the output is empty, containing no section with that header. -/
theorem parseLyrics_header_only_dropped :
    parseLyrics "[Verse 1]" = [] ∧
    ¬ ∃ sec ∈ parseLyrics "[Verse 1]", sec.header = "Verse 1" :=
  ⟨by decide, by decide⟩

/-- C3 (amended): a block that trims to a single line matching the header
pattern with nothing after the match yields empty content, and the
`if (content)` guard then drops the block: it contributes no section to the
output. -/
theorem processBlock_header_only_none (i : Nat) (b ln : List Char) (len : Nat) (g : List Char)
    (hl : splitLines (jsTrim b) = [ln])
    (hm : headerMatch (jsTrim ln) = some (len, g))
    (hc : jsTrim ((jsTrim ln).drop len) = []) :
    processBlock i b = none := by
  simp only [processBlock, hl, List.headD, hm, hc]
  rfl

/-- Witness for the amended C3 at the block `"[Verse 1]"`. -/
theorem processBlock_header_only_none_witness :
    processBlock 0 "[Verse 1]".data = none :=
  processBlock_header_only_none 0 "[Verse 1]".data "[Verse 1]".data 9 "Verse 1".data
    (by decide) (by decide) (by decide)

/-! ## Claims C1 and C4 — the matcher's single-pass predicate does not
prioritise exact matches, contrary to its own comment
(`// Prioritize exact match, then partial match in either direction`). -/

/-- C1 (code bug, evaluated at the failing input): for the single section
`"Verse 1"` and the pool `["Verse", "Verse 1"]`, an exact-label candidate is
available, yet the matcher binds the earlier candidate `"Verse"`, which
matches only by substring containment — `findIndex` tests
`exact || substring` per candidate instead of preferring exactness across the
pool. -/
theorem matcher_substring_shadows_exact :
    (buildScenes [⟨"Verse 1", "la"⟩]
      [⟨"Verse", "IMG-A", "ANI-A"⟩, ⟨"Verse 1", "IMG-B", "ANI-B"⟩]).map Scene.imagePrompt
    = ["IMG-A"] ∧
    ¬ ∃ sc ∈ buildScenes [⟨"Verse 1", "la"⟩]
      [⟨"Verse", "IMG-A", "ANI-A"⟩, ⟨"Verse 1", "IMG-B", "ANI-B"⟩],
        sc.imagePrompt = "IMG-B" :=
  ⟨by decide, by decide⟩

/-- C4 (code bug, evaluated at the failing input): sections
`["xy", "y", "x"]` with candidates `["x", "xy", "y"]` — a permutation whose
labels exactly match the headers — leave the scene `"x"` with empty prompts:
the first two sections consume the wrong candidates via substring matches, so
order-independence of full bindings fails (each candidate is still consumed at
most once, which is why the third scene finds an exhausted pool). -/
theorem matcher_permutation_leaves_scene_unbound :
    (buildScenes [⟨"xy", "c1"⟩, ⟨"y", "c2"⟩, ⟨"x", "c3"⟩]
      [⟨"x", "I1", "A1"⟩, ⟨"xy", "I2", "A2"⟩, ⟨"y", "I3", "A3"⟩]).map Scene.imagePrompt
    = ["I1", "I2", ""] ∧
    ∃ sc ∈ buildScenes [⟨"xy", "c1"⟩, ⟨"y", "c2"⟩, ⟨"x", "c3"⟩]
      [⟨"x", "I1", "A1"⟩, ⟨"xy", "I2", "A2"⟩, ⟨"y", "I3", "A3"⟩],
        sc.imagePrompt = "" ∧ sc.animationPrompt = "" :=
  ⟨by decide, by decide⟩

/-! ## Lemmas about the worker's generate-all loop -/

/-- Projection selecting terminal per-scene notifications: `completed` (no
message) and `error` (with its message). -/
def terminalOf : WorkerMsg → Option (Nat × Option String)
  | .completed i _ => some (i, none)
  | .error i m => some (i, some m)
  | _ => none

/-- Projection selecting `completed` notifications (by scene id). -/
def completedId : WorkerMsg → Option Nat
  | .completed i _ => some i
  | _ => none

/-- The terminal notification a scene must receive, as a function of its
image/video call outcomes: `error` with the translated message as soon as one
stage throws, `completed` otherwise. -/
def expectedTerminal (imgRes vidRes : Nat → Except String String) (sc : Scene) :
    Nat × Option String :=
  match imgRes sc.id with
  | .error e => (sc.id, some (getFriendlyErrorMessage e))
  | .ok _ =>
    match vidRes sc.id with
    | .error e => (sc.id, some (getFriendlyErrorMessage e))
    | .ok _ => (sc.id, none)

theorem readFlag_mono {t : Option Nat} {k k' : Nat} (h : readFlag t k = true)
    (hk : k ≤ k') : readFlag t k' = true := by
  cases t with
  | none => simp [readFlag] at h
  | some n => simp [readFlag] at h ⊢; omega

theorem countdownLoop_mem (t : Option Nat) (m : Nat) : ∀ (k : Nat) (x : WorkerMsg),
    x ∈ (countdownLoop t m k).1 → ∃ j, x = .countdown j := by
  induction m with
  | zero => intro k x hx; simp [countdownLoop] at hx
  | succ m ih =>
    intro k x hx
    simp only [countdownLoop] at hx
    by_cases h : readFlag t k = true
    · rw [if_pos h] at hx; simp at hx
    · rw [if_neg h] at hx
      rcases List.mem_cons.mp hx with rfl | hx2
      · exact ⟨m + 1, rfl⟩
      · exact ih (k + 1) x hx2

theorem finishRun_no_stopped (t : Option Nat) (k : Nat) : WorkerMsg.stopped ∉ finishRun t k := by
  unfold finishRun
  split <;> simp

theorem finishRun_of_flag {t : Option Nat} {k : Nat} (h : readFlag t k = true) :
    finishRun t k = [] := by
  unfold finishRun
  rw [if_pos h]

theorem finishRun_filterMap_terminal (t : Option Nat) (k : Nat) :
    (finishRun t k).filterMap terminalOf = [] := by
  unfold finishRun; split <;> rfl

theorem finishRun_filterMap_completed (t : Option Nat) (k : Nat) :
    (finishRun t k).filterMap completedId = [] := by
  unfold finishRun; split <;> rfl

theorem sceneStep_broke_flag {imgRes vidRes : Nat → Except String String}
    {t : Option Nat} {n idx : Nat} {sc : Scene} {k : Nat}
    (h : (sceneStep imgRes vidRes t n idx sc k).2.2 = true) :
    readFlag t (sceneStep imgRes vidRes t n idx sc k).2.1 = true := by
  by_cases h0 : readFlag t k = true
  · simp only [sceneStep, h0, if_true]
    exact readFlag_mono h0 (Nat.le_succ k)
  · cases himg : imgRes sc.id with
    | error e => simp [sceneStep, h0, himg] at h
    | ok img =>
      by_cases h1 : readFlag t (k + 1) = true
      · have h1' : readFlag t (k + 2) = true := readFlag_mono h1 (by omega)
        simp [sceneStep, h0, himg, h1, h1']
      · cases hvid : vidRes sc.id with
        | error e => simp [sceneStep, h0, himg, h1, hvid] at h
        | ok vid =>
          by_cases h2 : readFlag t (k + 2) = true
          · have h2' : readFlag t (k + 3) = true := readFlag_mono h2 (by omega)
            simp [sceneStep, h0, himg, h1, hvid, h2, h2']
          · simp [sceneStep, h0, himg, h1, hvid, h2] at h

theorem sceneStep_broke_shape {imgRes vidRes : Nat → Except String String}
    {t : Option Nat} {n idx : Nat} {sc : Scene} {k : Nat}
    (h : (sceneStep imgRes vidRes t n idx sc k).2.2 = true) :
    ∃ pre, (sceneStep imgRes vidRes t n idx sc k).1 = pre ++ [.stopped] ∧
      WorkerMsg.stopped ∉ pre := by
  by_cases h0 : readFlag t k = true
  · refine ⟨[], ?_, by simp⟩
    simp [sceneStep, h0]
  · cases himg : imgRes sc.id with
    | error e => simp [sceneStep, h0, himg] at h
    | ok img =>
      by_cases h1 : readFlag t (k + 1) = true
      · refine ⟨[.progress (mkProgressStart idx n sc.sectionHeader),
          .image_generating sc.id], ?_, by simp⟩
        simp [sceneStep, h0, himg, h1]
      · cases hvid : vidRes sc.id with
        | error e => simp [sceneStep, h0, himg, h1, hvid] at h
        | ok vid =>
          by_cases h2 : readFlag t (k + 2) = true
          · refine ⟨[.progress (mkProgressStart idx n sc.sectionHeader),
              .image_generating sc.id, .video_generating sc.id img], ?_, by simp⟩
            simp [sceneStep, h0, himg, h1, hvid, h2]
          · simp [sceneStep, h0, himg, h1, hvid, h2] at h

theorem sceneStep_not_broke_no_stopped {imgRes vidRes : Nat → Except String String}
    {t : Option Nat} {n idx : Nat} {sc : Scene} {k : Nat}
    (h : (sceneStep imgRes vidRes t n idx sc k).2.2 = false) :
    WorkerMsg.stopped ∉ (sceneStep imgRes vidRes t n idx sc k).1 := by
  by_cases h0 : readFlag t k = true
  · simp [sceneStep, h0] at h
  · cases himg : imgRes sc.id with
    | error e => simp [sceneStep, h0, himg]
    | ok img =>
      by_cases h1 : readFlag t (k + 1) = true
      · simp [sceneStep, h0, himg, h1] at h
      · cases hvid : vidRes sc.id with
        | error e => simp [sceneStep, h0, himg, h1, hvid]
        | ok vid =>
          by_cases h2 : readFlag t (k + 2) = true
          · simp [sceneStep, h0, himg, h1, hvid, h2] at h
          · simp [sceneStep, h0, himg, h1, hvid, h2]

theorem delaySection_broke_flag {t : Option Nat} {d : Nat} {b : Bool} {k : Nat}
    (h : (delaySection t d b k).2.2 = true) :
    readFlag t (delaySection t d b k).2.1 = true := by
  cases b with
  | false => simp [delaySection] at h
  | true =>
    by_cases h0 : readFlag t k = true
    · simp [delaySection, h0] at h
    · by_cases h1 : readFlag t (countdownLoop t d (k + 1)).2 = true
      · have h1' : readFlag t ((countdownLoop t d (k + 1)).2 + 1) = true :=
          readFlag_mono h1 (Nat.le_succ _)
        simp [delaySection, h0, h1, h1']
      · simp [delaySection, h0, h1] at h

theorem delaySection_broke_shape {t : Option Nat} {d : Nat} {b : Bool} {k : Nat}
    (h : (delaySection t d b k).2.2 = true) :
    ∃ pre, (delaySection t d b k).1 = pre ++ [.stopped] ∧
      WorkerMsg.stopped ∉ pre := by
  cases b with
  | false => simp [delaySection] at h
  | true =>
    by_cases h0 : readFlag t k = true
    · simp [delaySection, h0] at h
    · by_cases h1 : readFlag t (countdownLoop t d (k + 1)).2 = true
      · refine ⟨.progress waitingMsg :: (countdownLoop t d (k + 1)).1, ?_, ?_⟩
        · simp [delaySection, h0, h1]
        · intro hmem
          rcases List.mem_cons.mp hmem with he | hmem2
          · exact WorkerMsg.noConfusion he
          · rcases countdownLoop_mem t d (k + 1) _ hmem2 with ⟨j, hj⟩
            exact WorkerMsg.noConfusion hj
      · simp [delaySection, h0, h1] at h

theorem delaySection_not_broke_no_stopped {t : Option Nat} {d : Nat} {b : Bool} {k : Nat}
    (h : (delaySection t d b k).2.2 = false) :
    WorkerMsg.stopped ∉ (delaySection t d b k).1 := by
  cases b with
  | false => exact List.not_mem_nil _
  | true =>
    by_cases h0 : readFlag t k = true
    · have hnil : (delaySection t d true k).1 = [] := by simp [delaySection, h0]
      rw [hnil]
      exact List.not_mem_nil _
    · by_cases h1 : readFlag t (countdownLoop t d (k + 1)).2 = true
      · simp [delaySection, h0, h1] at h
      · have hsh : (delaySection t d true k).1 =
            .progress waitingMsg :: (countdownLoop t d (k + 1)).1 ++ [.countdown 0] := by
          simp [delaySection, h0, h1]
        rw [hsh]
        intro hmem
        rcases List.mem_cons.mp hmem with he | hmem2
        · exact WorkerMsg.noConfusion he
        · rcases List.mem_append.mp hmem2 with hciter | hlast
          · rcases countdownLoop_mem t d (k + 1) _ hciter with ⟨j, hj⟩
            exact WorkerMsg.noConfusion hj
          · exact WorkerMsg.noConfusion (List.mem_singleton.mp hlast)

theorem runLoop_stopped_spec (imgRes vidRes : Nat → Except String String)
    (t : Option Nat) (n d : Nat) :
    ∀ (pairs : List (Nat × Scene)) (k : Nat),
      (runLoop imgRes vidRes t n d pairs k).count .stopped ≤ 1 ∧
      (WorkerMsg.stopped ∈ runLoop imgRes vidRes t n d pairs k →
        (runLoop imgRes vidRes t n d pairs k).getLast? = some .stopped) := by
  intro pairs
  induction pairs with
  | nil =>
    intro k
    constructor
    · have h0 : (runLoop imgRes vidRes t n d [] k).count .stopped = 0 :=
        List.count_eq_zero.mpr (finishRun_no_stopped t k)
      omega
    · intro hmem
      exact absurd hmem (finishRun_no_stopped t k)
  | cons p rest ih =>
    intro k
    obtain ⟨idx, sc⟩ := p
    simp only [runLoop]
    by_cases hb : (sceneStep imgRes vidRes t n idx sc k).2.2 = true
    · obtain ⟨pre, hpre, hnpre⟩ := sceneStep_broke_shape hb
      have hfin := finishRun_of_flag (sceneStep_broke_flag hb)
      rw [if_pos hb, hpre, hfin, List.append_nil]
      constructor
      · rw [List.count_append]
        have hp0 : pre.count WorkerMsg.stopped = 0 := List.count_eq_zero.mpr hnpre
        simp [hp0]
      · intro _
        exact List.getLast?_concat _
    · have hb' : (sceneStep imgRes vidRes t n idx sc k).2.2 = false := by
        simpa using hb
      rw [if_neg hb]
      by_cases hd : (delaySection t d (decide (idx + 1 < n))
          (sceneStep imgRes vidRes t n idx sc k).2.1).2.2 = true
      · obtain ⟨pre, hpre, hnpre⟩ := delaySection_broke_shape hd
        have hfin := finishRun_of_flag (delaySection_broke_flag hd)
        rw [if_pos hd, hpre, hfin, List.append_nil]
        have hs0 : (sceneStep imgRes vidRes t n idx sc k).1.count WorkerMsg.stopped = 0 :=
          List.count_eq_zero.mpr (sceneStep_not_broke_no_stopped hb')
        constructor
        · rw [List.count_append, List.count_append]
          have hp0 : pre.count WorkerMsg.stopped = 0 := List.count_eq_zero.mpr hnpre
          simp [hs0, hp0]
        · intro _
          rw [← List.append_assoc]
          exact List.getLast?_concat _
      · have hd' : (delaySection t d (decide (idx + 1 < n))
            (sceneStep imgRes vidRes t n idx sc k).2.1).2.2 = false := by
          simpa using hd
        rw [if_neg hd]
        obtain ⟨ihc, ihl⟩ := ih (delaySection t d (decide (idx + 1 < n))
          (sceneStep imgRes vidRes t n idx sc k).2.1).2.1
        have hs0 : (sceneStep imgRes vidRes t n idx sc k).1.count WorkerMsg.stopped = 0 :=
          List.count_eq_zero.mpr (sceneStep_not_broke_no_stopped hb')
        have hd0 : (delaySection t d (decide (idx + 1 < n))
            (sceneStep imgRes vidRes t n idx sc k).2.1).1.count WorkerMsg.stopped = 0 :=
          List.count_eq_zero.mpr (delaySection_not_broke_no_stopped hd')
        constructor
        · rw [List.count_append, List.count_append, hs0, hd0]
          simpa using ihc
        · intro hmem
          have hmem' : WorkerMsg.stopped ∈ runLoop imgRes vidRes t n d rest
              (delaySection t d (decide (idx + 1 < n))
                (sceneStep imgRes vidRes t n idx sc k).2.1).2.1 := by
            rcases List.mem_append.mp hmem with h1 | h2
            · rcases List.mem_append.mp h1 with h3 | h4
              · exact absurd h3 (sceneStep_not_broke_no_stopped hb')
              · exact absurd h4 (delaySection_not_broke_no_stopped hd')
            · exact h2
          have hne : runLoop imgRes vidRes t n d rest
              (delaySection t d (decide (idx + 1 < n))
                (sceneStep imgRes vidRes t n idx sc k).2.1).2.1 ≠ [] := by
            intro e; rw [e] at hmem'; exact absurd hmem' (List.not_mem_nil _)
          rw [List.getLast?_append_of_ne_nil _ hne]
          exact ihl hmem'

theorem delaySection_mem {t : Option Nat} {d : Nat} {b : Bool} {k : Nat} {x : WorkerMsg}
    (hx : x ∈ (delaySection t d b k).1) :
    x = .progress waitingMsg ∨ (∃ j, x = .countdown j) ∨ x = .stopped := by
  cases b with
  | false =>
    rw [show (delaySection t d false k).1 = [] from rfl] at hx
    exact absurd hx (List.not_mem_nil _)
  | true =>
    by_cases h0 : readFlag t k = true
    · have hnil : (delaySection t d true k).1 = [] := by simp [delaySection, h0]
      rw [hnil] at hx
      exact absurd hx (List.not_mem_nil _)
    · by_cases h1 : readFlag t (countdownLoop t d (k + 1)).2 = true
      · have hsh : (delaySection t d true k).1 =
            .progress waitingMsg :: (countdownLoop t d (k + 1)).1 ++ [.stopped] := by
          simp [delaySection, h0, h1]
        rw [hsh] at hx
        rcases List.mem_cons.mp hx with rfl | hx2
        · exact Or.inl rfl
        · rcases List.mem_append.mp hx2 with hc | hl
          · exact Or.inr (Or.inl (countdownLoop_mem t d (k + 1) _ hc))
          · exact Or.inr (Or.inr (List.mem_singleton.mp hl))
      · have hsh : (delaySection t d true k).1 =
            .progress waitingMsg :: (countdownLoop t d (k + 1)).1 ++ [.countdown 0] := by
          simp [delaySection, h0, h1]
        rw [hsh] at hx
        rcases List.mem_cons.mp hx with rfl | hx2
        · exact Or.inl rfl
        · rcases List.mem_append.mp hx2 with hc | hl
          · exact Or.inr (Or.inl (countdownLoop_mem t d (k + 1) _ hc))
          · exact Or.inr (Or.inl ⟨0, List.mem_singleton.mp hl⟩)

theorem delaySection_filterMap_terminal (t : Option Nat) (d : Nat) (b : Bool) (k : Nat) :
    ((delaySection t d b k).1.filterMap terminalOf) = [] := by
  refine List.filterMap_eq_nil_iff.mpr (fun a ha => ?_)
  rcases delaySection_mem ha with rfl | ⟨j, rfl⟩ | rfl <;> rfl

theorem delaySection_filterMap_completed (t : Option Nat) (d : Nat) (b : Bool) (k : Nat) :
    ((delaySection t d b k).1.filterMap completedId) = [] := by
  refine List.filterMap_eq_nil_iff.mpr (fun a ha => ?_)
  rcases delaySection_mem ha with rfl | ⟨j, rfl⟩ | rfl <;> rfl

theorem sceneStep_none_not_broke (imgRes vidRes : Nat → Except String String)
    (n idx : Nat) (sc : Scene) (k : Nat) :
    (sceneStep imgRes vidRes none n idx sc k).2.2 = false := by
  cases himg : imgRes sc.id with
  | error e => simp [sceneStep, readFlag, himg]
  | ok img =>
    cases hvid : vidRes sc.id with
    | error e => simp [sceneStep, readFlag, himg, hvid]
    | ok vid => simp [sceneStep, readFlag, himg, hvid]

theorem delaySection_none_not_broke (d : Nat) (b : Bool) (k : Nat) :
    (delaySection none d b k).2.2 = false := by
  cases b with
  | false => rfl
  | true => simp [delaySection, readFlag]

theorem sceneStep_none_filterMap_terminal (imgRes vidRes : Nat → Except String String)
    (n idx : Nat) (sc : Scene) (k : Nat) :
    ((sceneStep imgRes vidRes none n idx sc k).1.filterMap terminalOf)
      = [expectedTerminal imgRes vidRes sc] := by
  cases himg : imgRes sc.id with
  | error e => simp [sceneStep, readFlag, himg, terminalOf, expectedTerminal]
  | ok img =>
    cases hvid : vidRes sc.id with
    | error e => simp [sceneStep, readFlag, himg, hvid, terminalOf, expectedTerminal]
    | ok vid => simp [sceneStep, readFlag, himg, hvid, terminalOf, expectedTerminal]

theorem sceneStep_none_filterMap_completed (imgRes vidRes : Nat → Except String String)
    (n idx : Nat) (sc : Scene) (k : Nat)
    (himg : (imgRes sc.id).isOk = true) (hvid : (vidRes sc.id).isOk = true) :
    ((sceneStep imgRes vidRes none n idx sc k).1.filterMap completedId) = [sc.id] := by
  cases himg2 : imgRes sc.id with
  | error e => rw [himg2] at himg; simp [Except.isOk, Except.toBool] at himg
  | ok img =>
    cases hvid2 : vidRes sc.id with
    | error e => rw [hvid2] at hvid; simp [Except.isOk, Except.toBool] at hvid
    | ok vid => simp [sceneStep, readFlag, himg2, hvid2, completedId]

theorem runLoop_none_terminal (imgRes vidRes : Nat → Except String String) (n d : Nat) :
    ∀ (pairs : List (Nat × Scene)) (k : Nat),
      ((runLoop imgRes vidRes none n d pairs k).filterMap terminalOf)
        = pairs.map (fun p => expectedTerminal imgRes vidRes p.2) ∧
      (runLoop imgRes vidRes none n d pairs k).getLast? = some .all_complete := by
  intro pairs
  induction pairs with
  | nil => intro k; exact ⟨rfl, rfl⟩
  | cons p rest ih =>
    intro k
    obtain ⟨idx, sc⟩ := p
    obtain ⟨ih1, ih2⟩ := ih (delaySection none d (decide (idx + 1 < n))
      (sceneStep imgRes vidRes none n idx sc k).2.1).2.1
    simp only [runLoop]
    rw [sceneStep_none_not_broke, delaySection_none_not_broke]
    simp only [Bool.false_eq_true, if_false]
    have hne : runLoop imgRes vidRes none n d rest
        (delaySection none d (decide (idx + 1 < n))
          (sceneStep imgRes vidRes none n idx sc k).2.1).2.1 ≠ [] := by
      intro e; rw [e] at ih2; simp at ih2
    constructor
    · rw [List.filterMap_append, List.filterMap_append,
        sceneStep_none_filterMap_terminal, delaySection_filterMap_terminal, ih1]
      simp
    · rw [List.getLast?_append_of_ne_nil _ hne]
      exact ih2

theorem runLoop_none_completed (imgRes vidRes : Nat → Except String String) (n d : Nat) :
    ∀ (pairs : List (Nat × Scene)) (k : Nat),
      (∀ p ∈ pairs, ((imgRes p.2.id).isOk = true ∧ (vidRes p.2.id).isOk = true)) →
      ((runLoop imgRes vidRes none n d pairs k).filterMap completedId)
        = pairs.map (fun p => p.2.id) := by
  intro pairs
  induction pairs with
  | nil => intro k _; rfl
  | cons p rest ih =>
    intro k hall
    obtain ⟨idx, sc⟩ := p
    have hsc := hall (idx, sc) (List.mem_cons_self _ _)
    have hrest : ∀ p ∈ rest, ((imgRes p.2.id).isOk = true ∧ (vidRes p.2.id).isOk = true) :=
      fun p hp => hall p (List.mem_cons_of_mem _ hp)
    simp only [runLoop]
    rw [sceneStep_none_not_broke, delaySection_none_not_broke]
    simp only [Bool.false_eq_true, if_false]
    rw [List.filterMap_append, List.filterMap_append,
      sceneStep_none_filterMap_completed imgRes vidRes n idx sc k hsc.1 hsc.2,
      delaySection_filterMap_completed,
      ih (delaySection none d (decide (idx + 1 < n))
        (sceneStep imgRes vidRes none n idx sc k).2.1).2.1 hrest]
    simp

/-! ## Claim C5 — batch ordering of completed notifications -/

/-- C5: in a generate-all batch where every scene's image and video calls
succeed and no abort is issued, the `completed` notifications appear in the
trace exactly once per scene, in input list order. -/
theorem worker_all_success_completed_in_order (scenes : List Scene) (delayMinutes : Nat)
    (imgRes vidRes : Nat → Except String String)
    (h : ∀ s ∈ scenes, ((imgRes s.id).isOk = true ∧ (vidRes s.id).isOk = true)) :
    ((workerGenerateAll scenes delayMinutes imgRes vidRes none).filterMap completedId)
      = scenes.map Scene.id := by
  unfold workerGenerateAll
  have hall : ∀ p ∈ scenes.enum, ((imgRes p.2.id).isOk = true ∧ (vidRes p.2.id).isOk = true) := by
    intro p hp
    have hmem : p.2 ∈ scenes := by
      rw [← List.enum_map_snd scenes]
      exact List.mem_map_of_mem _ hp
    exact h _ hmem
  rw [runLoop_none_completed imgRes vidRes scenes.length (delayMinutes * 60) scenes.enum 0 hall]
  rw [show (fun (p : Nat × Scene) => p.2.id) = (Scene.id ∘ Prod.snd) from rfl,
    ← List.map_map, List.enum_map_snd]

/-- Fixture oracles and scenes for concrete worker runs. -/
def okImgOracle : Nat → Except String String := fun i => .ok ("G" ++ toString i)

def okVidOracle : Nat → Except String String := fun i => .ok ("V" ++ toString i)

def sceneA : Scene := ⟨0, "A", "ca", "ia", "aa", .idle, none, none, none⟩

def sceneB : Scene := ⟨1, "B", "cb", "ib", "ab", .idle, none, none, none⟩

def sceneC : Scene := ⟨2, "C", "cc", "ic", "ac", .idle, none, none, none⟩

/-- Witness for C5 on a 3-scene batch. -/
theorem worker_all_success_completed_in_order_witness :
    ((workerGenerateAll [sceneA, sceneB, sceneC] 0 okImgOracle okVidOracle none).filterMap
      completedId) = [sceneA, sceneB, sceneC].map Scene.id :=
  worker_all_success_completed_in_order [sceneA, sceneB, sceneC] 0 okImgOracle okVidOracle
    (by decide)

/-! ## Claim C7 — per-scene failure isolation -/

/-- C7: for every batch and every outcome of the per-scene image/video calls
(no abort), each scene receives exactly one terminal notification, in input
order: `error` carrying the translated message of the stage that threw, else
`completed`; a failing scene never prevents the others from reaching their
terminal states, and the run still ends with `all_complete`. -/
theorem worker_failure_isolation (scenes : List Scene) (delayMinutes : Nat)
    (imgRes vidRes : Nat → Except String String) :
    ((workerGenerateAll scenes delayMinutes imgRes vidRes none).filterMap terminalOf)
      = scenes.map (expectedTerminal imgRes vidRes) ∧
    (workerGenerateAll scenes delayMinutes imgRes vidRes none).getLast?
      = some .all_complete := by
  unfold workerGenerateAll
  obtain ⟨h1, h2⟩ := runLoop_none_terminal imgRes vidRes scenes.length
    (delayMinutes * 60) scenes.enum 0
  refine ⟨?_, h2⟩
  rw [h1]
  rw [show (fun (p : Nat × Scene) => expectedTerminal imgRes vidRes p.2)
      = (expectedTerminal imgRes vidRes ∘ Prod.snd) from rfl,
    ← List.map_map, List.enum_map_snd]

/-! ## Claim C6 — cancellation -/

/-- The 3-scene scenario of C6: all calls succeed, one-minute inter-scene
delay, and the abort flag becomes true at the 5th flag read — which happens
during the countdown after the first scene. -/
def abortScenarioTrace : List WorkerMsg :=
  workerGenerateAll [sceneA, sceneB, sceneC] 1 okImgOracle okVidOracle (some 5)

/-- The caller state when the batch starts: the three scenes idle, the
generating flag set. -/
def abortScenarioInit : CallerState := ⟨[sceneA, sceneB, sceneC], true, "", 0, true⟩

/-- An image-call oracle whose generation throws (the remote call rejects). -/
def failImgOracle : Nat → Except String String := fun _ => .error "boom"

/-- The single-scene run in which the stop request arrives while the scene's
image call is in flight: the call rejects (the only suspension point of a
one-scene batch whose image stage throws), the `catch` posts `error`, the
delay block is skipped for the last scene without reading the flag, and the
final `all_complete` guard is the first read that sees the flag — read 1,
after the top-of-loop read 0 returned false. -/
def abortAtFinalTrace : List WorkerMsg :=
  workerGenerateAll [sceneA] 1 failImgOracle okVidOracle (some 1)

/-- C6 (counterexample): the abort flag is observed (its read suppresses the
`all_complete` notification — the unaborted run with the same outcomes
differs exactly by that final message), yet no `stopped` notification is
emitted: the claim's "exactly one 'stopped' notification" fails when the stop
arrives during the last scene's failing remote call, so that the first true
read is the final completion check. -/
theorem worker_abort_at_final_check_no_stopped :
    abortAtFinalTrace.count .stopped = 0 ∧
    WorkerMsg.all_complete ∉ abortAtFinalTrace ∧
    workerGenerateAll [sceneA] 1 failImgOracle okVidOracle none
      = abortAtFinalTrace ++ [.all_complete] :=
  ⟨by decide, by decide, by decide⟩

/-- C6 (amended): in any generate-all run (a) at most one `stopped`
notification is emitted, and (b) when one is emitted it is the final message
of the run, so no scene work starts after the abort is acted upon; (c) the
caller's `stopped` handler resets exactly the scenes in `image_generating` or
`video_generating` back to `idle`; and (d) in the 3-scene scenario with the
abort observed during the inter-scene delay after scene A, a `stopped`
notification is emitted and scenes B and C end idle (A completed).  (When the
abort flag is first observed at the final completion check — reachable when
the stop arrives during the last scene's failing remote call — no `stopped`
is emitted and only `all_complete` is suppressed.) -/
theorem worker_abort_stopped_properties (scenes : List Scene) (delayMinutes : Nat)
    (imgRes vidRes : Nat → Except String String) (t : Option Nat) (st : CallerState) :
    (workerGenerateAll scenes delayMinutes imgRes vidRes t).count .stopped ≤ 1 ∧
    (WorkerMsg.stopped ∈ workerGenerateAll scenes delayMinutes imgRes vidRes t →
      (workerGenerateAll scenes delayMinutes imgRes vidRes t).getLast? = some .stopped) ∧
    ((applyWorkerMsg st .stopped).scenes.map Scene.status =
      st.scenes.map (fun s =>
        if s.status = .image_generating || s.status = .video_generating then .idle
        else s.status)) ∧
    (WorkerMsg.stopped ∈ abortScenarioTrace ∧
      ((abortScenarioTrace.foldl applyWorkerMsg abortScenarioInit).scenes.map Scene.status
        = [.completed, .idle, .idle])) := by
  obtain ⟨hc, hl⟩ := runLoop_stopped_spec imgRes vidRes t scenes.length
    (delayMinutes * 60) scenes.enum 0
  refine ⟨hc, hl, ?_, by decide, by decide⟩
  simp only [applyWorkerMsg]
  rw [List.map_map]
  refine List.map_congr_left (fun s _ => ?_)
  by_cases h1 : s.status = SceneStatus.image_generating
  · simp [Function.comp, h1]
  · by_cases h2 : s.status = SceneStatus.video_generating
    · simp [Function.comp, h1, h2]
    · simp [Function.comp, h1, h2]

/-- Witness for the amended C6: in the 3-scene scenario the run ends with its
(unique) `stopped` notification. -/
theorem worker_abort_stopped_properties_witness :
    (workerGenerateAll [sceneA, sceneB, sceneC] 1 okImgOracle okVidOracle (some 5)).getLast?
      = some .stopped :=
  (worker_abort_stopped_properties [sceneA, sceneB, sceneC] 1 okImgOracle okVidOracle
    (some 5) abortScenarioInit).2.1 (by decide)

/-! ## Claim C8 — the poller's failure handling -/

theorem pollLoop_append :
    ∀ (polls : List VideoOperation) (init : VideoOperation)
      (extra : List VideoOperation) (op : VideoOperation),
      pollLoop init polls = some op → pollLoop init (polls ++ extra) = some op := by
  intro polls
  induction polls with
  | nil =>
    intro init extra op h
    have hd : init.done = true := by
      by_cases hd : init.done = true
      · exact hd
      · rw [pollLoop.eq_def, if_neg hd] at h
        exact absurd h (by simp)
    have ho : init = op := by
      rw [pollLoop.eq_def, if_pos hd] at h
      exact Option.some.inj h
    rw [pollLoop.eq_def, if_pos hd, ho]
  | cons p ps ih =>
    intro init extra op h
    by_cases hd : init.done = true
    · rw [pollLoop.eq_def, if_pos hd] at h
      rw [pollLoop.eq_def, if_pos hd]
      exact h
    · rw [pollLoop.eq_def, if_neg hd] at h
      rw [List.cons_append, pollLoop.eq_def, if_neg hd]
      exact ih p extra op h

/-- C8: for every poll-response sequence ending in a completed operation, the
poller (a) never consults poll responses beyond the first completed one —
appending further responses leaves the result unchanged; (b) fails with the
generation-failure error when completion carries an error; (c) otherwise
fails with the single descriptive locator error when the result locator is
absent or empty; (d) otherwise, when the payload fetch reports failure, fails
with the single descriptive fetch error built from that one fetch's status
text.  Each failure is a single raised error; nothing is retried. -/
theorem pollForVideoResult_failure_modes (init : VideoOperation)
    (polls extra : List VideoOperation) (fetch : String → FetchResponse)
    (apiKey : String) (op : VideoOperation)
    (h : pollLoop init polls = some op) :
    pollForVideoResult init (polls ++ extra) fetch apiKey
      = pollForVideoResult init polls fetch apiKey ∧
    (∀ m, op.error = some m →
      pollForVideoResult init polls fetch apiKey
        = some (.error ("Video generation failed: " ++ m))) ∧
    (op.error = none → op.uri.getD "" = "" →
      pollForVideoResult init polls fetch apiKey
        = some (.error "Could not retrieve video download link.")) ∧
    (∀ u, op.error = none → op.uri = some u → ¬(u = "") →
      (fetch (u ++ "&key=" ++ apiKey)).ok = false →
      pollForVideoResult init polls fetch apiKey
        = some (.error ("Failed to fetch video data: "
            ++ (fetch (u ++ "&key=" ++ apiKey)).statusText))) := by
  unfold pollForVideoResult
  rw [h, pollLoop_append polls init extra op h]
  refine ⟨rfl, ?_, ?_, ?_⟩
  · intro m hm
    simp [finishOperation, hm]
  · intro he hu
    simp [finishOperation, he, hu]
  · intro u he hu hne hok
    simp [finishOperation, he, hu, hne, hok]

/-- Witness for C8: a single already-completed operation carrying an error. -/
theorem pollForVideoResult_failure_modes_witness :
    pollForVideoResult ⟨true, some "boom", none⟩ [] (fun _ => ⟨true, "OK", "blob:x"⟩) "K"
      = some (.error ("Video generation failed: " ++ "boom")) :=
  (pollForVideoResult_failure_modes ⟨true, some "boom", none⟩ [] []
    (fun _ => ⟨true, "OK", "blob:x"⟩) "K" ⟨true, some "boom", none⟩ rfl).2.1 "boom" rfl

/-! ## Claim C10 — the video helper's default animation prompt -/

/-- C10: when the animation prompt is empty or whitespace-only, the prompt
sent to the video request is the fixed default (with the lip-sync suffix
appended when the flag is set); more generally the request prompt is never
the empty string. -/
theorem generateAnimationVideo_default_prompt (p : String) (lip : Bool)
    (h : ∀ c ∈ p.data, isWs c = true) :
    buildFinalPrompt p lip =
      (if lip then defaultAnimationPrompt ++ lipSyncSuffix else defaultAnimationPrompt) ∧
    (∀ q l, buildFinalPrompt q l ≠ "") := by
  constructor
  · have ht : jsTrimS p = "" := by
      unfold jsTrimS
      rw [jsTrim_eq_nil_iff.mpr h]
    unfold buildFinalPrompt
    rw [ht]
    rfl
  · intro q lp he
    have hbase : (if jsTrimS q = "" then defaultAnimationPrompt else jsTrimS q) ≠ "" := by
      by_cases hq : jsTrimS q = ""
      · rw [if_pos hq]; decide
      · rw [if_neg hq]; exact hq
    have hval : buildFinalPrompt q lp =
        (if lp then (if jsTrimS q = "" then defaultAnimationPrompt else jsTrimS q)
            ++ lipSyncSuffix
         else (if jsTrimS q = "" then defaultAnimationPrompt else jsTrimS q)) := rfl
    rw [hval] at he
    cases lp with
    | false =>
      rw [if_neg (by simp)] at he
      exact hbase he
    | true =>
      rw [if_pos rfl] at he
      have hd := congrArg String.data he
      rw [String.data_append] at hd
      have h2 := (List.append_eq_nil.mp hd).2
      exact absurd h2 (by decide)

/-- Witness for C10 at the whitespace-only prompt `" \t "` with lip-sync on. -/
theorem generateAnimationVideo_default_prompt_witness :
    buildFinalPrompt " \t " true =
      (if true then defaultAnimationPrompt ++ lipSyncSuffix else defaultAnimationPrompt) :=
  (generateAnimationVideo_default_prompt " \t " true (by decide)).1
